import Mathlib

/-!
Verification of the TPM 2.0 provider (`src/providers/tpm/mod.rs`) of the
Parsec service: a shallow embedding of the provider builder (secret
parsing, cipher negotiation, session construction) and of the provider's
`describe` introspection entry, together with theorems settling the
specification claims.

Rust `String` values are modelled as their UTF-8 byte sequences
(`RStr := List Nat`, each element a byte); for the ASCII literals
appearing in the source the bytes coincide with the code points.
External crates (`hex`, `uuid`, `zeroize`, `tss-esapi`) are modelled from
their documented behaviour; the TPM device and transport library are
abstracted as an explicit environment of boolean outcomes.
-/

/-- A Rust `String` / `Vec<u8>`, as its byte sequence. -/
abbrev RStr := List Nat

/-- Bytes of an ASCII string literal (UTF-8 bytes coincide with code points). -/
def asciiBytes (s : String) : RStr := s.data.map Char.toNat

/-- Models `std::io::ErrorKind` (only the kinds the source constructs). -/
inductive ErrorKind where
  | invalidData
  | other
  deriving DecidableEq, Repr

/-- Models `std::io::Error` as constructed by `std::io::Error::new(kind, msg)`. -/
structure IoErr where
  kind : ErrorKind
  msg : String
  deriving DecidableEq, Repr

deriving instance DecidableEq for Except

/-- Source constant `AUTH_STRING_PREFIX = "str:"` (bytes of `str:`). -/
def AUTH_STRING_TAG : RStr := asciiBytes "str:"

/-- Source constant `AUTH_HEX_PREFIX = "hex:"` (bytes of `hex:`). -/
def AUTH_HEX_TAG : RStr := asciiBytes "hex:"

/-- Rust `str::starts_with` on byte strings. -/
def startsWith (tag s : RStr) : Bool := s.take tag.length == tag

/-- Value of one hexadecimal digit byte (`0-9`, `a-f`, `A-F`), as accepted
by the `hex` crate. -/
def hexVal (b : Nat) : Option Nat :=
  if 48 ≤ b ∧ b ≤ 57 then some (b - 48)
  else if 97 ≤ b ∧ b ≤ 102 then some (b - 87)
  else if 65 ≤ b ∧ b ≤ 70 then some (b - 55)
  else none

/-- Models `hex::decode`: two digits per output byte; fails on an odd-length
input or on any non-hex-digit byte. -/
def hexDecode : RStr → Option (List Nat)
  | [] => some []
  | [_] => none
  | a :: b :: rest =>
    match hexVal a, hexVal b, hexDecode rest with
    | some ha, some hb, some r => some ((16 * ha + hb) :: r)
    | _, _, _ => none

/-- Lowercase hex digit byte of a value below 16 (as produced by `hex::encode`). -/
def hexDigitByte (v : Nat) : Nat := if v < 10 then 48 + v else 87 + v

/-- Models `hex::encode`: each byte becomes two lowercase hex digit bytes. -/
def hexEncode : List Nat → RStr
  | [] => []
  | b :: rest => hexDigitByte (b / 16) :: hexDigitByte (b % 16) :: hexEncode rest

/-- Models `ProviderBuilder::get_hierarchy_auth` (`mod.rs` lines 326-343):
`None` is a missing-auth error; a value starting with `str:` yields the
rest verbatim; a value starting with `hex:` yields the hex-decoded rest
(the source drops `AUTH_STRING_PREFIX.len()` bytes, which equals the hex
tag's length); any other value yields its bytes unchanged. -/
def get_hierarchy_auth (auth : Option RStr) : Except IoErr (List Nat) :=
  match auth with
  | none => .error ⟨.invalidData, "missing owner hierarchy auth"⟩
  | some a =>
    if startsWith AUTH_STRING_TAG a then
      .ok (a.drop AUTH_STRING_TAG.length)
    else if startsWith AUTH_HEX_TAG a then
      match hexDecode (a.drop AUTH_STRING_TAG.length) with
      | some bytes => .ok bytes
      | none => .error ⟨.invalidData, "invalid hex owner hierarchy auth"⟩
    else .ok a

example : get_hierarchy_auth (some (asciiBytes "str:ab")) = .ok (asciiBytes "ab") := by decide
example : get_hierarchy_auth (some (asciiBytes "hex:0aff")) = .ok [10, 255] := by decide
example : get_hierarchy_auth (some (asciiBytes "HEX:0aff")) = .ok (asciiBytes "HEX:0aff") := by
  decide
example : get_hierarchy_auth (some (asciiBytes "hex:0a0")) =
    .error ⟨.invalidData, "invalid hex owner hierarchy auth"⟩ := by decide

/-- Models `tss_esapi::structures::SymmetricDefinitionObject` (the two
constants the source uses). -/
inductive SymmetricDefinitionObject where
  | AES_256_CFB
  | AES_128_CFB
  deriving DecidableEq, Repr

/-- Models `tss_esapi` resource handle `Hierarchy` (the handles the source
uses). -/
inductive Hierarchy where
  | Owner
  | Endorsement
  deriving DecidableEq, Repr

/-- Models `HashingAlgorithm` (only the value the source uses). -/
inductive HashingAlgorithm where
  | Sha256
  deriving DecidableEq, Repr

/-- Models `KeyInfoManagerClient` as an abstract handle. -/
structure KeyInfoManagerClient where
  deriving DecidableEq, Repr

/-- Environment abstracting the external TPM transport and device: whether
the transport library accepts a locator string (`Tcti::from_str`), whether
a probing `Context` can be created, which cipher parameter sets
`test_parms` accepts, and whether the final transient-key-context
construction succeeds. -/
structure TpmEnv where
  tctiParses : RStr → Bool
  contextOk : Bool
  accepts : SymmetricDefinitionObject → Bool
  transientBuildOk : Bool

/-- Models `ProviderBuilder` (`mod.rs` lines 267-274). -/
structure ProviderBuilder where
  provider_name : Option RStr
  key_info_store : Option KeyInfoManagerClient
  tcti : Option RStr
  owner_hierarchy_auth : Option RStr
  endorsement_hierarchy_auth : Option RStr
  deriving Repr

/-- The fixed preference list tried by `find_default_context_cipher`
(`mod.rs` lines 355-358): AES-256-CFB first, then AES-128-CFB. -/
def cipherPreference : List SymmetricDefinitionObject :=
  [SymmetricDefinitionObject.AES_256_CFB, SymmetricDefinitionObject.AES_128_CFB]

/-- Models `ProviderBuilder::find_default_context_cipher` (`mod.rs` lines
353-385): fails when the TCTI configuration is missing, malformed, or a
probing context cannot be created; otherwise returns the first cipher of
the preference list the device accepts, and a capability error when
neither is accepted. -/
def find_default_context_cipher (env : TpmEnv) (b : ProviderBuilder) :
    Except IoErr SymmetricDefinitionObject :=
  match b.tcti with
  | none => .error ⟨.invalidData, "TCTI configuration missing"⟩
  | some t =>
    if env.tctiParses t then
      if env.contextOk then
        match cipherPreference.find? (fun c => env.accepts c) with
        | some c => .ok c
        | none => .error ⟨.other, "desired ciphers not supported"⟩
      else .error ⟨.invalidData, "failed initializing TSS context"⟩
    else .error ⟨.invalidData, "Invalid TCTI configuration string"⟩

/-- Source constant `ROOT_KEY_SIZE`. -/
def ROOT_KEY_SIZE : Nat := 2048

/-- Source constant `ROOT_KEY_AUTH_SIZE`. -/
def ROOT_KEY_AUTH_SIZE : Nat := 32

/-- Models `TransientKeyContextBuilder` as the record of the parameters
the source passes to it. -/
structure TransientKeyContextBuilder where
  tcti : RStr
  root_key_size : Nat
  root_key_auth_size : Nat
  hierarchy_auths : List (Hierarchy × List Nat)
  root_hierarchy : Hierarchy
  session_hash_alg : HashingAlgorithm
  default_cipher : SymmetricDefinitionObject
  deriving Repr

/-- Models `TransientKeyContextBuilder::with_hierarchy_auth`: records one
more hierarchy/authentication binding. -/
def TransientKeyContextBuilder.with_hierarchy_auth
    (bld : TransientKeyContextBuilder) (h : Hierarchy) (a : List Nat) :
    TransientKeyContextBuilder :=
  { bld with hierarchy_auths := bld.hierarchy_auths ++ [(h, a)] }

/-- Models `tss_esapi::TransientKeyContext` as the configuration of the
session it wraps. -/
structure TransientKeyContext where
  config : TransientKeyContextBuilder
  deriving Repr

/-- Models `TransientKeyContextBuilder::build`: succeeds exactly when the
environment lets the TSS transient context come up, with the error message
the source maps every such failure to. -/
def TransientKeyContextBuilder.build (env : TpmEnv)
    (bld : TransientKeyContextBuilder) : Except IoErr TransientKeyContext :=
  if env.transientBuildOk then .ok ⟨bld⟩
  else .error ⟨.invalidData, "failed initializing TSS context"⟩

/-- Models `ProviderIdentity`. -/
structure ProviderIdentity where
  name : RStr
  uuid : RStr
  deriving Repr

/-- Models `Provider` (`mod.rs` lines 68-80); the mutex-wrapped ESAPI
context is modelled as the session configuration record it protects. -/
structure Provider where
  provider_identity : ProviderIdentity
  esapi_context : TransientKeyContext
  key_info_store : KeyInfoManagerClient
  deriving Repr

/-- Source constant `Provider::PROVIDER_UUID`. -/
def PROVIDER_UUID : RStr := asciiBytes "1e4954a4-ff21-46d3-ab0c-661eeb667e1d"

/-- Models `Provider::new` (`mod.rs` lines 90-103). -/
def Provider.new (provider_name : RStr) (key_info_store : KeyInfoManagerClient)
    (esapi_context : TransientKeyContext) : Provider :=
  { provider_identity := { name := provider_name, uuid := PROVIDER_UUID }
    esapi_context := esapi_context
    key_info_store := key_info_store }

/-- Models `zeroize` on an optional textual field: the held string's bytes
are overwritten and the string cleared, leaving it empty; an absent value
is untouched. -/
def zeroizeField (f : Option RStr) : Option RStr := f.map (fun _ => [])

/-- The tail of `ProviderBuilder::build`: the provider-name and
key-info-store checks and the final TSS context construction (`mod.rs`
lines 419-430), in source evaluation order. -/
def finishBuild (env : TpmEnv) (b : ProviderBuilder)
    (bld : TransientKeyContextBuilder) : Except IoErr Provider × ProviderBuilder :=
  match b.provider_name with
  | none => (.error ⟨.invalidData, "missing provider name"⟩, b)
  | some name =>
    match b.key_info_store with
    | none => (.error ⟨.invalidData, "missing key info store"⟩, b)
    | some store =>
      match TransientKeyContextBuilder.build env bld with
      | .error e => (.error e, b)
      | .ok ctx => (.ok (Provider.new name store ctx), b)

/-- Models `ProviderBuilder::build` (`mod.rs` lines 393-431) as explicit
state passing: the returned builder is the state of the consumed `self` at
the corresponding exit point, so the effect of `take` and `zeroize` on the
configuration object is visible at every outcome. -/
def ProviderBuilder.build (env : TpmEnv) (b0 : ProviderBuilder) :
    Except IoErr Provider × ProviderBuilder :=
  let owner_auth_unparsed := b0.owner_hierarchy_auth
  let b1 := { b0 with owner_hierarchy_auth := none }
  match get_hierarchy_auth owner_auth_unparsed with
  | .error e => (.error e, b1)
  | .ok owner_auth =>
    match find_default_context_cipher env b1 with
    | .error e => (.error e, b1)
    | .ok default_cipher =>
      match b1.tcti with
      | none => (.error ⟨.invalidData, "TCTI configuration missing"⟩, b1)
      | some t =>
        if env.tctiParses t then
          let b2 := { b1 with tcti := zeroizeField b1.tcti,
                              owner_hierarchy_auth := zeroizeField b1.owner_hierarchy_auth }
          let bld : TransientKeyContextBuilder :=
            { tcti := t
              root_key_size := ROOT_KEY_SIZE
              root_key_auth_size := ROOT_KEY_AUTH_SIZE
              hierarchy_auths := [(Hierarchy.Owner, owner_auth)]
              root_hierarchy := Hierarchy.Owner
              session_hash_alg := HashingAlgorithm.Sha256
              default_cipher := default_cipher }
          if b2.endorsement_hierarchy_auth.isSome then
            let endorsement_auth_unparsed := b2.endorsement_hierarchy_auth
            let b3 := { b2 with endorsement_hierarchy_auth := none }
            match get_hierarchy_auth endorsement_auth_unparsed with
            | .error e => (.error e, b3)
            | .ok endorsement_auth =>
              finishBuild env b3
                (bld.with_hierarchy_auth Hierarchy.Endorsement endorsement_auth)
          else
            finishBuild env b2 bld
        else (.error ⟨.invalidData, "Invalid TCTI configuration string"⟩, b1)

/-- Models `parsec_interface::requests::Opcode`: the twelve opcodes the
provider supports plus the interface's other opcodes, so that exactness of
the supported set is a real statement. -/
inductive Opcode where
  | Ping
  | ListProviders
  | ListOpcodes
  | PsaGenerateKey
  | PsaDestroyKey
  | PsaSignHash
  | PsaVerifyHash
  | PsaImportKey
  | PsaExportPublicKey
  | ListAuthenticators
  | PsaGenerateRandom
  | ListKeys
  | ListClients
  | PsaHashCompute
  | PsaHashCompare
  | PsaAsymmetricEncrypt
  | PsaAsymmetricDecrypt
  | PsaAeadEncrypt
  | PsaAeadDecrypt
  | PsaExportKey
  | PsaRawKeyAgreement
  | DeleteClient
  | PsaCipherEncrypt
  | PsaCipherDecrypt
  | PsaMacCompute
  | PsaMacVerify
  | CanDoCrypto
  | AttestKey
  | PrepareKeyAttestation
  deriving DecidableEq, Repr, Fintype

/-- Source constant `SUPPORTED_OPCODES` (`mod.rs` lines 40-53), in source
order. -/
def SUPPORTED_OPCODES : List Opcode :=
  [Opcode.PsaGenerateKey,
   Opcode.PsaGenerateRandom,
   Opcode.PsaDestroyKey,
   Opcode.PsaSignHash,
   Opcode.PsaVerifyHash,
   Opcode.PsaImportKey,
   Opcode.PsaExportPublicKey,
   Opcode.PsaAsymmetricDecrypt,
   Opcode.PsaAsymmetricEncrypt,
   Opcode.CanDoCrypto,
   Opcode.AttestKey,
   Opcode.PrepareKeyAttestation]

/-- Models `parsec_interface::requests::ResponseStatus` (the variants the
modelled code constructs). -/
inductive ResponseStatus where
  | Success
  | InvalidEncoding
  deriving DecidableEq, Repr

/-- Models `parsec_interface::requests::ProviderId`. -/
inductive ProviderId where
  | Core
  | MbedCrypto
  | Pkcs11
  | Tpm
  | TrustedService
  | CryptoAuthLib
  deriving DecidableEq, Repr

/-- Models `list_providers::ProviderInfo`. -/
structure ProviderInfo where
  uuid : List Nat
  description : String
  vendor : String
  version_maj : Nat
  version_min : Nat
  version_rev : Nat
  id : ProviderId
  deriving DecidableEq, Repr

namespace Uuid

/-- Models `uuid::Uuid::parse_str` from the `uuid` crate's documentation,
for the formats relevant here: the hyphenated form (8-4-4-4-12 hex digits,
byte 45 is the hyphen) and the simple form (32 hex digits); the braced and
URN forms the crate also accepts are not modelled since no caller uses
them. Returns the 16 UUID bytes. -/
def parse_str (s : RStr) : Option (List Nat) :=
  if s.length = 36 then
    if s.get? 8 = some 45 ∧ s.get? 13 = some 45 ∧ s.get? 18 = some 45 ∧
        s.get? 23 = some 45 then
      hexDecode (s.take 8 ++ (s.drop 9).take 4 ++ (s.drop 14).take 4 ++
        (s.drop 19).take 4 ++ s.drop 24)
    else none
  else if s.length = 32 then hexDecode s
  else none

end Uuid

/-- Models `Provider::describe` (`mod.rs` lines 107-119); the returned
`HashSet<Opcode>` is modelled as the list of opcodes it collects. -/
def Provider.describe (_p : Provider) :
    Except ResponseStatus (ProviderInfo × List Opcode) :=
  match Uuid.parse_str PROVIDER_UUID with
  | none => .error ResponseStatus.InvalidEncoding
  | some u =>
    .ok ({ uuid := u
           description := "TPM provider, interfacing with a library implementing the TCG TSS 2.0 Enhanced System API specification."
           vendor := "Trusted Computing Group (TCG)"
           version_maj := 0
           version_min := 1
           version_rev := 0
           id := ProviderId.Tpm }, SUPPORTED_OPCODES)

/-- The complete set of error message texts `ProviderBuilder::build` (and
the functions it calls) can produce: every one is a string literal of the
source, independent of any configuration or secret value. -/
def buildErrorMsgs : List String :=
  ["missing owner hierarchy auth",
   "invalid hex owner hierarchy auth",
   "TCTI configuration missing",
   "Invalid TCTI configuration string",
   "failed initializing TSS context",
   "desired ciphers not supported",
   "missing provider name",
   "missing key info store"]

/-- A tag is a prefix of itself followed by anything. -/
theorem startsWith_append (tag rest : RStr) : startsWith tag (tag ++ rest) = true := by
  simp [startsWith, List.take_left]

/-- A tag of the same length as a different tag does not match a string
carrying the other tag. -/
theorem startsWith_append_ne (tag tag' rest : RStr) (hlen : tag.length = tag'.length)
    (hne : tag ≠ tag') : startsWith tag (tag' ++ rest) = false := by
  simp only [startsWith, hlen, List.take_left, beq_eq_false_iff_ne, ne_eq]
  exact fun h => hne h.symm

/-- `hexVal` inverts `hexDigitByte` on values below 16. -/
theorem hexVal_hexDigitByte (v : Nat) (h : v < 16) :
    hexVal (hexDigitByte v) = some v := by
  interval_cases v <;> decide

/-- `hexDecode` inverts `hexEncode` on byte sequences. -/
theorem hexDecode_hexEncode (s : List Nat) (h : ∀ b ∈ s, b < 256) :
    hexDecode (hexEncode s) = some s := by
  induction s with
  | nil => rfl
  | cons b rest ih =>
    have hb : b < 256 := h b (List.mem_cons_self b rest)
    have h1 : b / 16 < 16 := Nat.div_lt_of_lt_mul (by omega)
    have h2 : b % 16 < 16 := Nat.mod_lt _ (by omega)
    have hrest : hexDecode (hexEncode rest) = some rest :=
      ih (fun x hx => h x (List.mem_cons_of_mem _ hx))
    simp [hexEncode, hexDecode, hexVal_hexDigitByte _ h1, hexVal_hexDigitByte _ h2, hrest,
      Nat.div_add_mod]

/-- A successfully decoded hex string has twice the length of its output. -/
theorem hexDecode_length : ∀ (l : RStr) (bs : List Nat), hexDecode l = some bs →
    l.length = 2 * bs.length
  | [], bs, h => by
    simp only [hexDecode, Option.some.injEq] at h
    simp [← h]
  | [_], _, h => by simp [hexDecode] at h
  | a :: b :: rest, bs, h => by
    simp only [hexDecode] at h
    cases ha : hexVal a with
    | none => rw [ha] at h; simp at h
    | some va =>
      cases hb : hexVal b with
      | none => rw [ha, hb] at h; simp at h
      | some vb =>
        cases hr : hexDecode rest with
        | none => rw [ha, hb, hr] at h; simp at h
        | some r =>
          rw [ha, hb, hr] at h
          simp only [Option.some.injEq] at h
          have := hexDecode_length rest r hr
          subst h
          simp [List.length_cons, this]
          omega

/-- `hexDecode` rejects every odd-length input. -/
theorem hexDecode_odd (l : RStr) (h : l.length % 2 = 1) : hexDecode l = none := by
  cases hd : hexDecode l with
  | none => rfl
  | some bs =>
    have := hexDecode_length l bs hd
    omega

/-- C1: the secret parser returns the remaining bytes verbatim after a
`str:` tag, the hex-decoded remaining bytes after a `hex:` tag, and the
input bytes unchanged when neither tag is present; the tag match is
case-sensitive, so an input starting with `HEX:` is returned as raw text. -/
theorem secret_parser_spec :
    (∀ rest : RStr, get_hierarchy_auth (some (AUTH_STRING_TAG ++ rest)) = .ok rest) ∧
    (∀ s : List Nat, (∀ b ∈ s, b < 256) →
      get_hierarchy_auth (some (AUTH_HEX_TAG ++ hexEncode s)) = .ok s) ∧
    (∀ a : RStr, startsWith AUTH_STRING_TAG a = false → startsWith AUTH_HEX_TAG a = false →
      get_hierarchy_auth (some a) = .ok a) ∧
    get_hierarchy_auth (some (asciiBytes "HEX:0aff")) = .ok (asciiBytes "HEX:0aff") := by
  refine ⟨fun rest => ?_, fun s hs => ?_, fun a h1 h2 => ?_, by decide⟩
  · simp [get_hierarchy_auth, startsWith_append, List.drop_left]
  · have hne : startsWith AUTH_STRING_TAG (AUTH_HEX_TAG ++ hexEncode s) = false :=
      startsWith_append_ne _ _ _ (by decide) (by decide)
    have hlen : AUTH_STRING_TAG.length = AUTH_HEX_TAG.length := by decide
    simp [get_hierarchy_auth, hne, startsWith_append, hlen, List.drop_left,
      hexDecode_hexEncode s hs]
  · simp [get_hierarchy_auth, h1, h2]

/-- Witness for C1 at concrete inputs. -/
theorem secret_parser_spec_witness :
    get_hierarchy_auth (some (AUTH_STRING_TAG ++ asciiBytes "pw")) = .ok (asciiBytes "pw") ∧
    get_hierarchy_auth (some (AUTH_HEX_TAG ++ hexEncode [0, 171, 255])) = .ok [0, 171, 255] ∧
    get_hierarchy_auth (some (asciiBytes "bare")) = .ok (asciiBytes "bare") :=
  ⟨secret_parser_spec.1 (asciiBytes "pw"),
   secret_parser_spec.2.1 [0, 171, 255] (by decide),
   secret_parser_spec.2.2.1 (asciiBytes "bare") (by decide) (by decide)⟩

/-- C5: a `hex:`-tagged secret whose remainder is not valid hexadecimal
(in particular any odd-length remainder) makes the secret parser return
the fixed decoding error, and an absent secret returns the fixed
missing-secret error. The parser is a total function, so no input can
make it panic. -/
theorem secret_parser_hex_errors :
    (∀ rest : RStr, hexDecode rest = none →
      get_hierarchy_auth (some (AUTH_HEX_TAG ++ rest)) =
        .error ⟨.invalidData, "invalid hex owner hierarchy auth"⟩) ∧
    (∀ rest : RStr, rest.length % 2 = 1 →
      get_hierarchy_auth (some (AUTH_HEX_TAG ++ rest)) =
        .error ⟨.invalidData, "invalid hex owner hierarchy auth"⟩) ∧
    get_hierarchy_auth none = .error ⟨.invalidData, "missing owner hierarchy auth"⟩ := by
  have key : ∀ rest : RStr, hexDecode rest = none →
      get_hierarchy_auth (some (AUTH_HEX_TAG ++ rest)) =
        .error ⟨.invalidData, "invalid hex owner hierarchy auth"⟩ := by
    intro rest hbad
    have hne : startsWith AUTH_STRING_TAG (AUTH_HEX_TAG ++ rest) = false :=
      startsWith_append_ne _ _ _ (by decide) (by decide)
    have hlen : AUTH_STRING_TAG.length = AUTH_HEX_TAG.length := by decide
    simp [get_hierarchy_auth, hne, startsWith_append, hlen, List.drop_left, hbad]
  exact ⟨key, fun rest hodd => key rest (hexDecode_odd rest hodd), rfl⟩

/-- Witness for C5: a non-hex remainder and an odd-length remainder. -/
theorem secret_parser_hex_errors_witness :
    get_hierarchy_auth (some (AUTH_HEX_TAG ++ asciiBytes "0g")) =
      .error ⟨.invalidData, "invalid hex owner hierarchy auth"⟩ ∧
    get_hierarchy_auth (some (AUTH_HEX_TAG ++ asciiBytes "abc")) =
      .error ⟨.invalidData, "invalid hex owner hierarchy auth"⟩ :=
  ⟨secret_parser_hex_errors.1 (asciiBytes "0g") (by decide),
   secret_parser_hex_errors.2.1 (asciiBytes "abc") (by decide)⟩

/-- C9: the supplied empty string, and the inputs consisting of only the
`str:` or `hex:` tag, all parse successfully to the empty byte sequence;
moreover no supplied secret ever yields the missing-secret error, whose
only source is an absent value: a supplied secret either parses or fails
with the hex decoding error. -/
theorem secret_parser_empty_ok :
    get_hierarchy_auth (some []) = .ok [] ∧
    get_hierarchy_auth (some AUTH_STRING_TAG) = .ok [] ∧
    get_hierarchy_auth (some AUTH_HEX_TAG) = .ok [] ∧
    (∀ a : RStr, (∃ v, get_hierarchy_auth (some a) = .ok v) ∨
      get_hierarchy_auth (some a) =
        .error ⟨.invalidData, "invalid hex owner hierarchy auth"⟩) := by
  refine ⟨by decide, by decide, by decide, fun a => ?_⟩
  simp only [get_hierarchy_auth]
  cases h1 : startsWith AUTH_STRING_TAG a with
  | true => exact Or.inl ⟨_, rfl⟩
  | false =>
    cases h2 : startsWith AUTH_HEX_TAG a with
    | true =>
      cases hdec : hexDecode (a.drop AUTH_STRING_TAG.length) with
      | none => exact Or.inr rfl
      | some bytes => exact Or.inl ⟨bytes, rfl⟩
    | false => exact Or.inl ⟨a, rfl⟩

/-- C2: with a transport locator present and a probing context available,
the cipher negotiator tries AES-256-CFB first, then AES-128-CFB, and
returns the first cipher the device accepts; a device accepting only
AES-128-CFB gets AES-128-CFB, and a device accepting neither gets the
capability error, never a cipher. -/
theorem cipher_negotiator_spec (env : TpmEnv) (b : ProviderBuilder) (t : RStr)
    (htcti : b.tcti = some t) (hparse : env.tctiParses t = true)
    (hctx : env.contextOk = true) :
    (env.accepts SymmetricDefinitionObject.AES_256_CFB = true →
      find_default_context_cipher env b = .ok SymmetricDefinitionObject.AES_256_CFB) ∧
    (env.accepts SymmetricDefinitionObject.AES_256_CFB = false →
      env.accepts SymmetricDefinitionObject.AES_128_CFB = true →
      find_default_context_cipher env b = .ok SymmetricDefinitionObject.AES_128_CFB) ∧
    (env.accepts SymmetricDefinitionObject.AES_256_CFB = false →
      env.accepts SymmetricDefinitionObject.AES_128_CFB = false →
      find_default_context_cipher env b =
        .error ⟨.other, "desired ciphers not supported"⟩) := by
  refine ⟨fun h256 => ?_, fun h256 h128 => ?_, fun h256 h128 => ?_⟩
  · simp [find_default_context_cipher, htcti, hparse, hctx, cipherPreference, List.find?, h256]
  · simp [find_default_context_cipher, htcti, hparse, hctx, cipherPreference, List.find?,
      h256, h128]
  · simp [find_default_context_cipher, htcti, hparse, hctx, cipherPreference, List.find?,
      h256, h128]

/-- Witness for C2: a device accepting only AES-128-CFB yields AES-128-CFB. -/
theorem cipher_negotiator_spec_witness :
    find_default_context_cipher
      ⟨fun _ => true, true, fun c => c == SymmetricDefinitionObject.AES_128_CFB, true⟩
      ⟨none, none, some (asciiBytes "device:/dev/tpm0"), none, none⟩ =
      .ok SymmetricDefinitionObject.AES_128_CFB :=
  (cipher_negotiator_spec _ _ (asciiBytes "device:/dev/tpm0") rfl rfl rfl).2.1
    (by decide) (by decide)

/-- `build` exits with the parse error, owner secret taken, when the owner
secret does not parse. -/
theorem build_owner_err (env : TpmEnv) (b : ProviderBuilder) (e : IoErr)
    (h : get_hierarchy_auth b.owner_hierarchy_auth = .error e) :
    ProviderBuilder.build env b = (.error e, { b with owner_hierarchy_auth := none }) := by
  simp [ProviderBuilder.build, h]

/-- `build` exits with the negotiation error, owner secret taken, when no
cipher can be negotiated. -/
theorem build_cipher_err (env : TpmEnv) (b : ProviderBuilder) (oa : List Nat) (e : IoErr)
    (hga : get_hierarchy_auth b.owner_hierarchy_auth = .ok oa)
    (hc : find_default_context_cipher env { b with owner_hierarchy_auth := none } = .error e) :
    ProviderBuilder.build env b = (.error e, { b with owner_hierarchy_auth := none }) := by
  simp [ProviderBuilder.build, hga, hc]

/-- With the owner secret parsed, a cipher negotiated, a well-formed
transport locator and no endorsement secret, `build` scrubs the textual
fields and runs the final checks with the session parameters of the
source. -/
theorem build_main_no_endorsement (env : TpmEnv) (b : ProviderBuilder) (oa : List Nat)
    (c : SymmetricDefinitionObject) (t : RStr)
    (hga : get_hierarchy_auth b.owner_hierarchy_auth = .ok oa)
    (hc : find_default_context_cipher env { b with owner_hierarchy_auth := none } = .ok c)
    (ht : b.tcti = some t) (hp : env.tctiParses t = true)
    (he : b.endorsement_hierarchy_auth = none) :
    ProviderBuilder.build env b =
      finishBuild env { b with owner_hierarchy_auth := none, tcti := some [] }
        { tcti := t, root_key_size := ROOT_KEY_SIZE, root_key_auth_size := ROOT_KEY_AUTH_SIZE,
          hierarchy_auths := [(Hierarchy.Owner, oa)], root_hierarchy := Hierarchy.Owner,
          session_hash_alg := HashingAlgorithm.Sha256, default_cipher := c } := by
  simp only [ProviderBuilder.build]
  rw [hga, hc]
  simp [ht, hp, he, zeroizeField]

/-- Same as `build_main_no_endorsement` but with an endorsement secret
present: it is taken from the configuration and parsed, and on success
bound to the endorsement hierarchy. -/
theorem build_main_with_endorsement (env : TpmEnv) (b : ProviderBuilder) (oa : List Nat)
    (c : SymmetricDefinitionObject) (t : RStr) (ea : RStr)
    (hga : get_hierarchy_auth b.owner_hierarchy_auth = .ok oa)
    (hc : find_default_context_cipher env { b with owner_hierarchy_auth := none } = .ok c)
    (ht : b.tcti = some t) (hp : env.tctiParses t = true)
    (he : b.endorsement_hierarchy_auth = some ea) :
    ProviderBuilder.build env b =
      (match get_hierarchy_auth (some ea) with
       | .error e => (.error e,
           { b with owner_hierarchy_auth := none, tcti := some [],
                    endorsement_hierarchy_auth := none })
       | .ok x =>
           finishBuild env
             { b with owner_hierarchy_auth := none, tcti := some [],
                      endorsement_hierarchy_auth := none }
             (TransientKeyContextBuilder.with_hierarchy_auth
               { tcti := t, root_key_size := ROOT_KEY_SIZE,
                 root_key_auth_size := ROOT_KEY_AUTH_SIZE,
                 hierarchy_auths := [(Hierarchy.Owner, oa)],
                 root_hierarchy := Hierarchy.Owner,
                 session_hash_alg := HashingAlgorithm.Sha256, default_cipher := c }
               Hierarchy.Endorsement x)) := by
  simp only [ProviderBuilder.build]
  rw [hga, hc]
  simp [ht, hp, he, zeroizeField]

/-- `finishBuild` never changes the configuration state. -/
theorem finishBuild_snd (env : TpmEnv) (b : ProviderBuilder)
    (bld : TransientKeyContextBuilder) : (finishBuild env b bld).2 = b := by
  obtain ⟨pn, ks, tc, ow, ea⟩ := b
  unfold finishBuild
  cases pn with
  | none => rfl
  | some n =>
    cases ks with
    | none => rfl
    | some st =>
      cases h : TransientKeyContextBuilder.build env bld with
      | error e => rfl
      | ok ctx => rfl

/-- `finishBuild` fails with the fixed message when the provider name is
missing. -/
theorem finishBuild_name_missing (env : TpmEnv) (b : ProviderBuilder)
    (bld : TransientKeyContextBuilder) (h : b.provider_name = none) :
    (finishBuild env b bld).1 = .error ⟨.invalidData, "missing provider name"⟩ := by
  simp [finishBuild, h]

/-- `finishBuild` fails with the fixed message when the key info store is
missing. -/
theorem finishBuild_store_missing (env : TpmEnv) (b : ProviderBuilder)
    (bld : TransientKeyContextBuilder) (n : RStr) (hn : b.provider_name = some n)
    (h : b.key_info_store = none) :
    (finishBuild env b bld).1 = .error ⟨.invalidData, "missing key info store"⟩ := by
  simp [finishBuild, hn, h]

/-- `finishBuild` succeeds exactly as the source does: name and store
present and the TSS transient context construction succeeding. -/
theorem finishBuild_ok (env : TpmEnv) (b : ProviderBuilder)
    (bld : TransientKeyContextBuilder) (n : RStr) (st : KeyInfoManagerClient)
    (hn : b.provider_name = some n) (hs : b.key_info_store = some st)
    (htb : env.transientBuildOk = true) :
    finishBuild env b bld = (.ok (Provider.new n st ⟨bld⟩), b) := by
  simp [finishBuild, hn, hs, TransientKeyContextBuilder.build, htb]

/-- A provider coming out of `finishBuild` forces name, store and TSS
context availability. -/
theorem finishBuild_ok_inv (env : TpmEnv) (b : ProviderBuilder)
    (bld : TransientKeyContextBuilder) (p : Provider)
    (h : (finishBuild env b bld).1 = .ok p) :
    b.provider_name.isSome = true ∧ b.key_info_store.isSome = true ∧
      env.transientBuildOk = true := by
  obtain ⟨pn, ks, tc, ow, ea⟩ := b
  cases pn with
  | none => simp [finishBuild] at h
  | some n =>
    cases ks with
    | none => simp [finishBuild] at h
    | some st =>
      cases htb : env.transientBuildOk with
      | false => simp [finishBuild, TransientKeyContextBuilder.build, htb] at h
      | true => simp

/-- The cipher negotiation succeeds given a parsable locator, a probing
context and at least one acceptable cipher. -/
theorem find_cipher_ok_of_accepts (env : TpmEnv) (b : ProviderBuilder) (t : RStr)
    (ht : b.tcti = some t) (hp : env.tctiParses t = true) (hctx : env.contextOk = true)
    (hacc : (env.accepts SymmetricDefinitionObject.AES_256_CFB ||
             env.accepts SymmetricDefinitionObject.AES_128_CFB) = true) :
    ∃ c, find_default_context_cipher env b = .ok c := by
  cases h256 : env.accepts SymmetricDefinitionObject.AES_256_CFB with
  | true =>
    exact ⟨SymmetricDefinitionObject.AES_256_CFB, by
      simp [find_default_context_cipher, ht, hp, hctx, cipherPreference, List.find?, h256]⟩
  | false =>
    rw [h256] at hacc
    simp only [Bool.false_or] at hacc
    exact ⟨SymmetricDefinitionObject.AES_128_CFB, by
      simp [find_default_context_cipher, ht, hp, hctx, cipherPreference, List.find?, h256,
        hacc]⟩

/-- Conversely, a negotiated cipher forces a parsable locator, a probing
context and an acceptable cipher. -/
theorem find_cipher_ok_inv (env : TpmEnv) (b : ProviderBuilder) (c : SymmetricDefinitionObject)
    (h : find_default_context_cipher env b = .ok c) :
    ∃ t, b.tcti = some t ∧ env.tctiParses t = true ∧ env.contextOk = true ∧
      (env.accepts SymmetricDefinitionObject.AES_256_CFB ||
       env.accepts SymmetricDefinitionObject.AES_128_CFB) = true := by
  cases htc : b.tcti with
  | none => simp [find_default_context_cipher, htc] at h
  | some t =>
    refine ⟨t, rfl, ?_⟩
    cases hp : env.tctiParses t with
    | false => simp [find_default_context_cipher, htc, hp] at h
    | true =>
      cases hctx : env.contextOk with
      | false => simp [find_default_context_cipher, htc, hp, hctx] at h
      | true =>
        refine ⟨rfl, rfl, ?_⟩
        cases h256 : env.accepts SymmetricDefinitionObject.AES_256_CFB with
        | true => simp
        | false =>
          cases h128 : env.accepts SymmetricDefinitionObject.AES_128_CFB with
          | true => simp
          | false =>
            simp [find_default_context_cipher, htc, hp, hctx, cipherPreference, List.find?,
              h256, h128] at h

/-- C3: `build` fails with the fixed configuration error whenever the
owner-hierarchy secret is absent; and every configuration carrying a
parsable owner secret, a well-formed transport locator (with a working
device accepting one of the ciphers and a TSS context coming up), a
provider name and a key-info store but no endorsement secret builds
successfully — even though parsing the absent endorsement secret would
fail, so the endorsement secret is never parsed. -/
theorem build_owner_required_endorsement_optional :
    (∀ (env : TpmEnv) (b : ProviderBuilder), b.owner_hierarchy_auth = none →
      (ProviderBuilder.build env b).1 =
        .error ⟨.invalidData, "missing owner hierarchy auth"⟩) ∧
    (∀ (env : TpmEnv) (b : ProviderBuilder) (a oa t n : RStr) (st : KeyInfoManagerClient),
      b.owner_hierarchy_auth = some a → get_hierarchy_auth (some a) = .ok oa →
      b.tcti = some t → env.tctiParses t = true → env.contextOk = true →
      (env.accepts SymmetricDefinitionObject.AES_256_CFB ||
        env.accepts SymmetricDefinitionObject.AES_128_CFB) = true →
      b.provider_name = some n → b.key_info_store = some st →
      b.endorsement_hierarchy_auth = none → env.transientBuildOk = true →
      get_hierarchy_auth b.endorsement_hierarchy_auth =
        .error ⟨.invalidData, "missing owner hierarchy auth"⟩ ∧
      ∃ p, (ProviderBuilder.build env b).1 = .ok p ∧
        p.provider_identity.name = n ∧ p.provider_identity.uuid = PROVIDER_UUID) := by
  constructor
  · intro env b hnone
    have h : get_hierarchy_auth b.owner_hierarchy_auth =
        .error ⟨.invalidData, "missing owner hierarchy auth"⟩ := by rw [hnone]; rfl
    rw [build_owner_err env b _ h]
  · intro env b a oa t n st hown hga ht hp hctx hacc hname hstore hendo htb
    obtain ⟨c, hc⟩ :=
      find_cipher_ok_of_accepts env { b with owner_hierarchy_auth := none } t ht hp hctx hacc
    have hga' : get_hierarchy_auth b.owner_hierarchy_auth = .ok oa := by rw [hown]; exact hga
    rw [hendo]
    refine ⟨rfl, ?_⟩
    rw [build_main_no_endorsement env b oa c t hga' hc ht hp hendo]
    simp only [finishBuild, hname, hstore, TransientKeyContextBuilder.build, htb, if_true]
    exact ⟨_, rfl, rfl, rfl⟩

/-- Witness for C3: both parts at a concrete configuration and device. -/
theorem build_owner_required_endorsement_optional_witness :
    (ProviderBuilder.build ⟨fun _ => true, true, fun _ => true, true⟩
        ⟨some (asciiBytes "tpm-provider"), some ⟨⟩, some (asciiBytes "mssim"), none, none⟩).1 =
      .error ⟨.invalidData, "missing owner hierarchy auth"⟩ ∧
    (get_hierarchy_auth (ProviderBuilder.endorsement_hierarchy_auth
        ⟨some (asciiBytes "tpm-provider"), some ⟨⟩, some (asciiBytes "mssim"),
         some (asciiBytes "str:pass"), none⟩) =
      .error ⟨.invalidData, "missing owner hierarchy auth"⟩ ∧
    ∃ p, (ProviderBuilder.build ⟨fun _ => true, true, fun _ => true, true⟩
        ⟨some (asciiBytes "tpm-provider"), some ⟨⟩, some (asciiBytes "mssim"),
         some (asciiBytes "str:pass"), none⟩).1 = .ok p ∧
      p.provider_identity.name = asciiBytes "tpm-provider" ∧
      p.provider_identity.uuid = PROVIDER_UUID) :=
  ⟨build_owner_required_endorsement_optional.1 _ _ rfl,
   build_owner_required_endorsement_optional.2 _ _ (asciiBytes "str:pass") (asciiBytes "pass")
     (asciiBytes "mssim") (asciiBytes "tpm-provider") ⟨⟩ rfl (by decide) rfl rfl rfl rfl rfl rfl
     rfl rfl⟩

/-- C6: once `build` has parsed the owner secret, negotiated a cipher and
re-parsed the transport locator, the configuration object it hands back —
whether the remaining steps succeed or fail — retains no secret text: the
owner-secret field was taken and is gone, the transport-locator field is
zeroed to the empty string, and the endorsement-secret field is likewise
gone. -/
theorem build_scrubs_secrets (env : TpmEnv) (b : ProviderBuilder) (oa : List Nat) (t : RStr)
    (hga : get_hierarchy_auth b.owner_hierarchy_auth = .ok oa)
    (ht : b.tcti = some t) (hp : env.tctiParses t = true) (hctx : env.contextOk = true)
    (hacc : (env.accepts SymmetricDefinitionObject.AES_256_CFB ||
             env.accepts SymmetricDefinitionObject.AES_128_CFB) = true) :
    (ProviderBuilder.build env b).2.owner_hierarchy_auth = none ∧
    (ProviderBuilder.build env b).2.tcti = some [] ∧
    (ProviderBuilder.build env b).2.endorsement_hierarchy_auth = none := by
  obtain ⟨c, hc⟩ :=
    find_cipher_ok_of_accepts env { b with owner_hierarchy_auth := none } t ht hp hctx hacc
  cases he : b.endorsement_hierarchy_auth with
  | none =>
    rw [build_main_no_endorsement env b oa c t hga hc ht hp he, finishBuild_snd]
    exact ⟨rfl, rfl, he⟩
  | some ea =>
    rw [build_main_with_endorsement env b oa c t ea hga hc ht hp he]
    cases hge : get_hierarchy_auth (some ea) with
    | error e => exact ⟨rfl, rfl, rfl⟩
    | ok x => refine ⟨?_, ?_, ?_⟩ <;> simp [finishBuild_snd]

/-- Witness for C6: a configuration whose build fails later (no provider
name) still comes back scrubbed. -/
theorem build_scrubs_secrets_witness :
    (ProviderBuilder.build ⟨fun _ => true, true, fun _ => true, true⟩
        ⟨none, none, some (asciiBytes "mssim"), some (asciiBytes "hex:00ff"),
         some (asciiBytes "str:e")⟩).2.owner_hierarchy_auth = none ∧
    (ProviderBuilder.build ⟨fun _ => true, true, fun _ => true, true⟩
        ⟨none, none, some (asciiBytes "mssim"), some (asciiBytes "hex:00ff"),
         some (asciiBytes "str:e")⟩).2.tcti = some [] ∧
    (ProviderBuilder.build ⟨fun _ => true, true, fun _ => true, true⟩
        ⟨none, none, some (asciiBytes "mssim"), some (asciiBytes "hex:00ff"),
         some (asciiBytes "str:e")⟩).2.endorsement_hierarchy_auth = none :=
  build_scrubs_secrets _ _ [0, 255] (asciiBytes "mssim") (by decide) rfl rfl rfl rfl

/-- Every error of the secret parser carries one of its two literal
messages. -/
theorem gha_error_msg (auth : Option RStr) (e : IoErr)
    (h : get_hierarchy_auth auth = .error e) :
    e.msg = "missing owner hierarchy auth" ∨
      e.msg = "invalid hex owner hierarchy auth" := by
  cases auth with
  | none =>
    simp only [get_hierarchy_auth, Except.error.injEq] at h
    exact Or.inl (by rw [← h])
  | some a =>
    cases h1 : startsWith AUTH_STRING_TAG a with
    | true => simp [get_hierarchy_auth, h1] at h
    | false =>
      cases h2 : startsWith AUTH_HEX_TAG a with
      | false => simp [get_hierarchy_auth, h1, h2] at h
      | true =>
        cases hdec : hexDecode (a.drop AUTH_STRING_TAG.length) with
        | some bs => simp [get_hierarchy_auth, h1, h2, hdec] at h
        | none =>
          simp only [get_hierarchy_auth, h1, h2, hdec, Bool.false_eq_true, if_false,
            if_true, Except.error.injEq] at h
          exact Or.inr (by rw [← h])

/-- Every error of the cipher negotiator carries one of the fixed build
error messages. -/
theorem find_cipher_error_msg (env : TpmEnv) (b : ProviderBuilder) (e : IoErr)
    (h : find_default_context_cipher env b = .error e) : e.msg ∈ buildErrorMsgs := by
  cases htc : b.tcti with
  | none =>
    simp only [find_default_context_cipher, htc, Except.error.injEq] at h
    subst h
    simp [buildErrorMsgs]
  | some t =>
    cases hp : env.tctiParses t with
    | false =>
      simp only [find_default_context_cipher, htc, hp, Bool.false_eq_true, if_false,
        Except.error.injEq] at h
      subst h
      simp [buildErrorMsgs]
    | true =>
      cases hctx : env.contextOk with
      | false =>
        simp only [find_default_context_cipher, htc, hp, hctx, Bool.false_eq_true, if_true,
          if_false, Except.error.injEq] at h
        subst h
        simp [buildErrorMsgs]
      | true =>
        cases hfind : cipherPreference.find? (fun c => env.accepts c) with
        | some c => simp [find_default_context_cipher, htc, hp, hctx, hfind] at h
        | none =>
          simp only [find_default_context_cipher, htc, hp, hctx, hfind, if_true,
            Except.error.injEq] at h
          subst h
          simp [buildErrorMsgs]

/-- Every error of the final build step carries one of the fixed build
error messages. -/
theorem finishBuild_error_msg (env : TpmEnv) (b : ProviderBuilder)
    (bld : TransientKeyContextBuilder) (e : IoErr)
    (h : (finishBuild env b bld).1 = .error e) : e.msg ∈ buildErrorMsgs := by
  obtain ⟨pn, ks, tc, ow, ea⟩ := b
  cases pn with
  | none =>
    simp only [finishBuild, Except.error.injEq] at h
    subst h
    simp [buildErrorMsgs]
  | some n =>
    cases ks with
    | none =>
      simp only [finishBuild, Except.error.injEq] at h
      subst h
      simp [buildErrorMsgs]
    | some st =>
      cases htb : env.transientBuildOk with
      | true => simp [finishBuild, TransientKeyContextBuilder.build, htb] at h
      | false =>
        simp only [finishBuild, TransientKeyContextBuilder.build, htb, Bool.false_eq_true,
          if_false, Except.error.injEq] at h
        subst h
        simp [buildErrorMsgs]

/-- Every error of `build` carries one of the fixed build error
messages. -/
theorem build_error_msg (env : TpmEnv) (b : ProviderBuilder) (e : IoErr)
    (h : (ProviderBuilder.build env b).1 = .error e) : e.msg ∈ buildErrorMsgs := by
  cases hga : get_hierarchy_auth b.owner_hierarchy_auth with
  | error e0 =>
    rw [build_owner_err env b e0 hga] at h
    simp only [Except.error.injEq] at h
    subst h
    rcases gha_error_msg _ _ hga with hm | hm <;> simp [buildErrorMsgs, hm]
  | ok oa =>
    cases hc : find_default_context_cipher env { b with owner_hierarchy_auth := none } with
    | error e1 =>
      rw [build_cipher_err env b oa e1 hga hc] at h
      simp only [Except.error.injEq] at h
      subst h
      exact find_cipher_error_msg _ _ _ hc
    | ok c =>
      obtain ⟨t, ht, hpar, hctx, hacc⟩ :=
        find_cipher_ok_inv env { b with owner_hierarchy_auth := none } c hc
      have ht' : b.tcti = some t := ht
      cases he : b.endorsement_hierarchy_auth with
      | none =>
        rw [build_main_no_endorsement env b oa c t hga hc ht' hpar he] at h
        exact finishBuild_error_msg _ _ _ _ h
      | some ea =>
        rw [build_main_with_endorsement env b oa c t ea hga hc ht' hpar he] at h
        cases hge : get_hierarchy_auth (some ea) with
        | error e2 =>
          rw [hge] at h
          simp only [Except.error.injEq] at h
          subst h
          rcases gha_error_msg _ _ hge with hm | hm <;> simp [buildErrorMsgs, hm]
        | ok x =>
          rw [hge] at h
          exact finishBuild_error_msg _ _ _ _ h

/-- C7: every error message the secret parser or `build` can produce is
one of a fixed set of string literals of the source — determined by the
failing step alone, never containing any part of a secret — so two runs
differing only in the secret value report identical texts for the same
failure. -/
theorem error_messages_fixed :
    (∀ (auth : Option RStr) (e : IoErr), get_hierarchy_auth auth = .error e →
      e.msg = "missing owner hierarchy auth" ∨
        e.msg = "invalid hex owner hierarchy auth") ∧
    (∀ (env : TpmEnv) (b : ProviderBuilder) (e : IoErr),
      (ProviderBuilder.build env b).1 = .error e → e.msg ∈ buildErrorMsgs) :=
  ⟨gha_error_msg, build_error_msg⟩

/-- Witness for C7: a parse failure and a negotiation failure at concrete
inputs. -/
theorem error_messages_fixed_witness :
    (IoErr.msg ⟨.invalidData, "missing owner hierarchy auth"⟩ =
        "missing owner hierarchy auth" ∨
      IoErr.msg ⟨.invalidData, "missing owner hierarchy auth"⟩ =
        "invalid hex owner hierarchy auth") ∧
    IoErr.msg ⟨.other, "desired ciphers not supported"⟩ ∈ buildErrorMsgs :=
  ⟨error_messages_fixed.1 none _ rfl,
   error_messages_fixed.2 ⟨fun _ => true, true, fun _ => false, true⟩
     ⟨none, none, some (asciiBytes "mssim"), some (asciiBytes "pw"), none⟩ _ rfl⟩

/-- C4: with every earlier step succeeding, a missing provider name or a
missing key-info store makes `build` fail with the corresponding fixed
configuration error; and a `Provider` value comes out of `build` exactly
when every build step succeeds — owner secret parses, the transport
locator parses and a probing context accepts a cipher, any supplied
endorsement secret parses, name and store are present, and the TSS
transient context comes up — so no partially constructed provider is ever
returned. -/
theorem build_atomic :
    (∀ (env : TpmEnv) (b : ProviderBuilder) (oa : List Nat) (t : RStr),
      get_hierarchy_auth b.owner_hierarchy_auth = .ok oa →
      b.tcti = some t → env.tctiParses t = true → env.contextOk = true →
      (env.accepts SymmetricDefinitionObject.AES_256_CFB ||
       env.accepts SymmetricDefinitionObject.AES_128_CFB) = true →
      (∀ ea, b.endorsement_hierarchy_auth = some ea →
        ∃ x, get_hierarchy_auth (some ea) = .ok x) →
      b.provider_name = none →
      (ProviderBuilder.build env b).1 = .error ⟨.invalidData, "missing provider name"⟩) ∧
    (∀ (env : TpmEnv) (b : ProviderBuilder) (oa : List Nat) (t n : RStr),
      get_hierarchy_auth b.owner_hierarchy_auth = .ok oa →
      b.tcti = some t → env.tctiParses t = true → env.contextOk = true →
      (env.accepts SymmetricDefinitionObject.AES_256_CFB ||
       env.accepts SymmetricDefinitionObject.AES_128_CFB) = true →
      (∀ ea, b.endorsement_hierarchy_auth = some ea →
        ∃ x, get_hierarchy_auth (some ea) = .ok x) →
      b.provider_name = some n → b.key_info_store = none →
      (ProviderBuilder.build env b).1 = .error ⟨.invalidData, "missing key info store"⟩) ∧
    (∀ (env : TpmEnv) (b : ProviderBuilder),
      (∃ p, (ProviderBuilder.build env b).1 = .ok p) ↔
        ((∃ oa, get_hierarchy_auth b.owner_hierarchy_auth = .ok oa) ∧
         (∃ t, b.tcti = some t ∧ env.tctiParses t = true) ∧
         env.contextOk = true ∧
         (env.accepts SymmetricDefinitionObject.AES_256_CFB ||
          env.accepts SymmetricDefinitionObject.AES_128_CFB) = true ∧
         (∀ ea, b.endorsement_hierarchy_auth = some ea →
           ∃ x, get_hierarchy_auth (some ea) = .ok x) ∧
         b.provider_name.isSome = true ∧ b.key_info_store.isSome = true ∧
         env.transientBuildOk = true)) := by
  refine ⟨?_, ?_, ?_⟩
  · intro env b oa t hga ht hpar hctx hacc hend hname
    obtain ⟨c, hc⟩ :=
      find_cipher_ok_of_accepts env { b with owner_hierarchy_auth := none } t ht hpar hctx hacc
    cases he : b.endorsement_hierarchy_auth with
    | none =>
      rw [build_main_no_endorsement env b oa c t hga hc ht hpar he]
      simp [finishBuild, hname]
    | some ea =>
      obtain ⟨x, hx⟩ := hend ea he
      rw [build_main_with_endorsement env b oa c t ea hga hc ht hpar he, hx]
      simp [finishBuild, hname]
  · intro env b oa t n hga ht hpar hctx hacc hend hname hstore
    obtain ⟨c, hc⟩ :=
      find_cipher_ok_of_accepts env { b with owner_hierarchy_auth := none } t ht hpar hctx hacc
    cases he : b.endorsement_hierarchy_auth with
    | none =>
      rw [build_main_no_endorsement env b oa c t hga hc ht hpar he]
      simp [finishBuild, hname, hstore]
    | some ea =>
      obtain ⟨x, hx⟩ := hend ea he
      rw [build_main_with_endorsement env b oa c t ea hga hc ht hpar he, hx]
      simp [finishBuild, hname, hstore]
  · intro env b
    constructor
    · rintro ⟨p, hp⟩
      cases hga : get_hierarchy_auth b.owner_hierarchy_auth with
      | error e0 => rw [build_owner_err env b e0 hga] at hp; simp at hp
      | ok oa =>
        cases hc : find_default_context_cipher env { b with owner_hierarchy_auth := none } with
        | error e1 => rw [build_cipher_err env b oa e1 hga hc] at hp; simp at hp
        | ok c =>
          obtain ⟨t, ht, hpar, hctx, hacc⟩ :=
            find_cipher_ok_inv env { b with owner_hierarchy_auth := none } c hc
          have ht' : b.tcti = some t := ht
          cases he : b.endorsement_hierarchy_auth with
          | none =>
            rw [build_main_no_endorsement env b oa c t hga hc ht' hpar he] at hp
            obtain ⟨hn, hs, htb⟩ := finishBuild_ok_inv _ _ _ _ hp
            refine ⟨⟨oa, rfl⟩, ⟨t, ht', hpar⟩, hctx, hacc, ?_, hn, hs, htb⟩
            intro ea hea
            exact Option.noConfusion hea
          | some ea =>
            rw [build_main_with_endorsement env b oa c t ea hga hc ht' hpar he] at hp
            cases hge : get_hierarchy_auth (some ea) with
            | error e2 => rw [hge] at hp; simp at hp
            | ok x =>
              rw [hge] at hp
              obtain ⟨hn, hs, htb⟩ := finishBuild_ok_inv _ _ _ _ hp
              refine ⟨⟨oa, rfl⟩, ⟨t, ht', hpar⟩, hctx, hacc, ?_, hn, hs, htb⟩
              intro ea' hea'
              obtain rfl := Option.some.inj hea'
              exact ⟨x, hge⟩
    · rintro ⟨⟨oa, hga⟩, ⟨t, ht, hpar⟩, hctx, hacc, hend, hn, hs, htb⟩
      obtain ⟨n, hn'⟩ := Option.isSome_iff_exists.mp hn
      obtain ⟨st, hs'⟩ := Option.isSome_iff_exists.mp hs
      obtain ⟨c, hc⟩ :=
        find_cipher_ok_of_accepts env { b with owner_hierarchy_auth := none } t ht hpar hctx hacc
      cases he : b.endorsement_hierarchy_auth with
      | none =>
        rw [build_main_no_endorsement env b oa c t hga hc ht hpar he]
        simp only [finishBuild, hn', hs', TransientKeyContextBuilder.build, htb, if_true]
        exact ⟨_, rfl⟩
      | some ea =>
        obtain ⟨x, hx⟩ := hend ea he
        rw [build_main_with_endorsement env b oa c t ea hga hc ht hpar he, hx]
        simp only [finishBuild, hn', hs', TransientKeyContextBuilder.build, htb, if_true]
        exact ⟨_, rfl⟩

/-- Witness for C4: the missing-name error and both directions of the
success equivalence at concrete configurations. -/
theorem build_atomic_witness :
    (ProviderBuilder.build ⟨fun _ => true, true, fun _ => true, true⟩
        ⟨none, some ⟨⟩, some (asciiBytes "mssim"), some (asciiBytes "str:pw"), none⟩).1 =
      .error ⟨.invalidData, "missing provider name"⟩ ∧
    (ProviderBuilder.build ⟨fun _ => true, true, fun _ => true, true⟩
        ⟨some (asciiBytes "tpm-provider"), none, some (asciiBytes "mssim"),
         some (asciiBytes "str:pw"), none⟩).1 =
      .error ⟨.invalidData, "missing key info store"⟩ ∧
    (∃ p, (ProviderBuilder.build ⟨fun _ => true, true, fun _ => true, true⟩
        ⟨some (asciiBytes "tpm-provider"), some ⟨⟩, some (asciiBytes "mssim"),
         some (asciiBytes "str:pw"), some (asciiBytes "hex:ff")⟩).1 = .ok p) :=
  ⟨build_atomic.1 _ _ (asciiBytes "pw") (asciiBytes "mssim") (by decide) rfl rfl rfl rfl
     (fun ea hea => by cases hea) rfl,
   build_atomic.2.1 _ _ (asciiBytes "pw") (asciiBytes "mssim") (asciiBytes "tpm-provider")
     (by decide) rfl rfl rfl rfl (fun ea hea => by cases hea) rfl rfl,
   (build_atomic.2.2 _ _).mpr
     ⟨⟨asciiBytes "pw", by decide⟩, ⟨asciiBytes "mssim", rfl, rfl⟩, rfl, rfl,
      fun ea hea => ⟨[255], by rw [(Option.some.inj hea).symm]; decide⟩, rfl, rfl, rfl⟩⟩

/-- C8: for every provider instance, `describe` returns the fixed UUID
`1e4954a4-ff21-46d3-ab0c-661eeb667e1d` (as its 16 bytes), the fixed
description and vendor text, the three-part version number 0.1.0, the TPM
provider id, and exactly the twelve supported opcodes of the operation
table — no more and no fewer. -/
theorem describe_spec (p : Provider) :
    Provider.describe p =
      .ok ({ uuid := [30, 73, 84, 164, 255, 33, 70, 211, 171, 12, 102, 30, 235, 102, 126, 29],
             description := "TPM provider, interfacing with a library implementing the TCG TSS 2.0 Enhanced System API specification.",
             vendor := "Trusted Computing Group (TCG)",
             version_maj := 0, version_min := 1, version_rev := 0,
             id := ProviderId.Tpm }, SUPPORTED_OPCODES) ∧
    SUPPORTED_OPCODES.length = 12 ∧ SUPPORTED_OPCODES.Nodup ∧
    (∀ o : Opcode, o ∈ SUPPORTED_OPCODES ↔
      (o = Opcode.PsaGenerateKey ∨ o = Opcode.PsaGenerateRandom ∨ o = Opcode.PsaDestroyKey ∨
       o = Opcode.PsaSignHash ∨ o = Opcode.PsaVerifyHash ∨ o = Opcode.PsaImportKey ∨
       o = Opcode.PsaExportPublicKey ∨ o = Opcode.PsaAsymmetricDecrypt ∨
       o = Opcode.PsaAsymmetricEncrypt ∨ o = Opcode.CanDoCrypto ∨ o = Opcode.AttestKey ∨
       o = Opcode.PrepareKeyAttestation)) :=
  ⟨rfl, by decide, by decide, by decide⟩

/-- C10: `describe` never fails: the constant provider UUID string is a
valid hyphenated UUID, so the only error branch (an invalid encoding from
the UUID parse) is unreachable and every call returns `Ok`. -/
theorem describe_never_fails (p : Provider) :
    (∃ r, Provider.describe p = .ok r) ∧
    Uuid.parse_str PROVIDER_UUID =
      some [30, 73, 84, 164, 255, 33, 70, 211, 171, 12, 102, 30, 235, 102, 126, 29] :=
  ⟨⟨_, rfl⟩, by decide⟩

/-- Witness for C9: a malformed supplied secret still avoids the
missing-secret error. -/
theorem secret_parser_empty_ok_witness :
    (∃ v, get_hierarchy_auth (some (asciiBytes "hex:zz")) = .ok v) ∨
      get_hierarchy_auth (some (asciiBytes "hex:zz")) =
        .error ⟨.invalidData, "invalid hex owner hierarchy auth"⟩ :=
  secret_parser_empty_ok.2.2.2 (asciiBytes "hex:zz")

/-- Witness for C8 at a concrete provider instance. -/
theorem describe_spec_witness :
    Provider.describe (Provider.new (asciiBytes "tpm-provider") ⟨⟩
        ⟨⟨[], ROOT_KEY_SIZE, ROOT_KEY_AUTH_SIZE, [], Hierarchy.Owner, HashingAlgorithm.Sha256,
          SymmetricDefinitionObject.AES_256_CFB⟩⟩) =
      .ok ({ uuid := [30, 73, 84, 164, 255, 33, 70, 211, 171, 12, 102, 30, 235, 102, 126, 29],
             description := "TPM provider, interfacing with a library implementing the TCG TSS 2.0 Enhanced System API specification.",
             vendor := "Trusted Computing Group (TCG)",
             version_maj := 0, version_min := 1, version_rev := 0,
             id := ProviderId.Tpm }, SUPPORTED_OPCODES) :=
  (describe_spec _).1

/-- Witness for C10 at a concrete provider instance. -/
theorem describe_never_fails_witness :
    ∃ r, Provider.describe (Provider.new (asciiBytes "tpm-provider") ⟨⟩
        ⟨⟨[], ROOT_KEY_SIZE, ROOT_KEY_AUTH_SIZE, [], Hierarchy.Owner, HashingAlgorithm.Sha256,
          SymmetricDefinitionObject.AES_256_CFB⟩⟩) = .ok r :=
  (describe_never_fails _).1
